import Mathlib

/-!
Verification development for the networking sequence-number substrate:
`SequenceNumberStats` (receiver-side sequence tracker) and
`SentPacketHistory` (sender-side ring of recently sent payloads).

The 16-bit sequence space has `UINT16_RANGE = 65536` values.  The policy
constant `MAX_REASONABLE_SEQUENCE_GAP` is declared in a header that is not
part of the sources at hand, so every definition below is parameterised by
it (written `G`); theorems state the bounds on `G` they need.
-/

namespace Hifi

/-- `UINT16_RANGE` from the source: one more than the largest `quint16`. -/
def UINT16_RANGE : Nat := 65536

/-- Conversion of a (possibly negative) machine integer to `quint16`,
i.e. reduction modulo `UINT16_RANGE`. -/
def toU16 (z : Int) : Nat := (z % (65536 : Int)).toNat

/-- State of `SequenceNumberStats`: the most recently accepted sequence
number, the set of sequence numbers believed missing, the seven counters,
and the identity of the current sender (a `QUuid`, modelled as a `Nat`
with `0` standing for the null UUID). -/
structure SeqStats where
  lastReceived : Nat
  missingSet : Finset Nat
  numReceived : Int
  numUnreasonable : Int
  numEarly : Int
  numLate : Int
  numLost : Int
  numRecovered : Int
  numDuplicate : Int
  lastSenderUUID : Nat
  deriving DecidableEq

/-- The freshly constructed tracker: `_lastReceived` starts at the ring
maximum, all counters at zero, the sender identity at the null UUID. -/
def freshSeqStats : SeqStats :=
  { lastReceived := 65535
    missingSet := ∅
    numReceived := 0
    numUnreasonable := 0
    numEarly := 0
    numLate := 0
    numLost := 0
    numRecovered := 0
    numDuplicate := 0
    lastSenderUUID := 0 }

/-- `SequenceNumberStats::reset`: clears the missing set and the seven
counters; `_lastReceived` and `_lastSenderUUID` are left untouched. -/
def SeqStats.reset (s : SeqStats) : SeqStats :=
  { s with
    missingSet := ∅
    numReceived := 0
    numUnreasonable := 0
    numEarly := 0
    numLate := 0
    numLost := 0
    numRecovered := 0
    numDuplicate := 0 }

/-- The set of sequence numbers inserted by the loop
`for (missingInt = expectedInt; missingInt < incomingInt; missingInt++)`:
each value, normalised back into `[0, 65535]` if negative. -/
def skippedSet (expectedInt incomingInt : Int) : Finset Nat :=
  (Finset.range (incomingInt - expectedInt).toNat).image
    (fun (j : Nat) =>
      let m := expectedInt + (j : Int)
      (if m < 0 then m + 65536 else m).toNat)

/-- `SequenceNumberStats::pruneMissingSet`: drops entries that are too old
relative to `_lastReceived`, handling the case where the cutoff
`_lastReceived - G` goes negative (recent window wraps the ring top). -/
def pruneMissingSet (G : Nat) (s : SeqStats) : SeqStats :=
  let cutoff : Int := (s.lastReceived : Int) - (G : Int)
  if 0 ≤ cutoff then
    let nonRolloverCutoff : Nat := toU16 cutoff
    let kept := s.missingSet.filter
      (fun missing => ¬(s.lastReceived < missing ∨ missing < nonRolloverCutoff))
    { s with missingSet := kept }
  else
    let rolloverCutoff : Nat := toU16 (cutoff + 65536)
    let kept := s.missingSet.filter
      (fun missing => ¬(s.lastReceived < missing ∧ missing < rolloverCutoff))
    { s with missingSet := kept }

/-- The shared early/late tail of `sequenceNumberReceived`, entered once
rollover has been corrected for: `incomingInt` and `expectedInt` are the
(possibly negative) corrected values, `incoming` the raw `quint16`. -/
def handleOutOfOrder (G : Nat) (s : SeqStats) (incoming : Nat)
    (incomingInt expectedInt : Int) : SeqStats :=
  if expectedInt < incomingInt then
    let s1 : SeqStats :=
      { s with
        numEarly := s.numEarly + 1
        numLost := s.numLost + (incomingInt - expectedInt)
        lastReceived := incoming
        missingSet := s.missingSet ∪ skippedSet expectedInt incomingInt }
    if G < s1.missingSet.card then pruneMissingSet G s1 else s1
  else
    let s1 : SeqStats := { s with numLate := s.numLate + 1 }
    if incoming ∈ s1.missingSet then
      { s1 with
        missingSet := s1.missingSet.erase incoming
        numLost := s1.numLost - 1
        numRecovered := s1.numRecovered + 1 }
    else
      { s1 with numDuplicate := s1.numDuplicate + 1 }

/-- The body of `SequenceNumberStats::sequenceNumberReceived` after the
sender-change check: expected-value computation with 16-bit wraparound,
on-time fast path, rollover correction, implausible-gap rejection, and
the early/late classification. -/
def processSequence (G : Nat) (s0 : SeqStats) (incoming : Nat) : SeqStats :=
  let expected : Nat :=
    if 0 < s0.numReceived then (s0.lastReceived + 1) % 65536 else incoming
  let s := { s0 with numReceived := s0.numReceived + 1 }
  if incoming = expected then
    { s with lastReceived := incoming }
  else
    let incomingInt : Int := (incoming : Int)
    let expectedInt : Int := (expected : Int)
    let absGap : Int := |incomingInt - expectedInt|
    if (65536 : Int) - (G : Int) ≤ absGap then
      if expectedInt < incomingInt then
        handleOutOfOrder G s incoming (incomingInt - 65536) expectedInt
      else
        handleOutOfOrder G s incoming incomingInt (expectedInt - 65536)
    else if (G : Int) < absGap then
      { s with numUnreasonable := s.numUnreasonable + 1 }
    else
      handleOutOfOrder G s incoming incomingInt expectedInt

/-- `SequenceNumberStats::sequenceNumberReceived`: if the sender changed,
reset all stats and adopt the new identity, then process the incoming
sequence number. -/
def sequenceNumberReceived (G : Nat) (s0 : SeqStats) (incoming : Nat)
    (senderUUID : Nat) : SeqStats :=
  let s :=
    if senderUUID ≠ s0.lastSenderUUID then
      { s0.reset with lastSenderUUID := senderUUID }
    else s0
  processSequence G s incoming

/-- State of `SentPacketHistory`: the circular buffer of sent payloads
(`QByteArray`s, modelled as `String`s; `QVector(size)` default-constructs
`size` empty entries), the index of the most recently written slot, the
number of live entries, and the most recently recorded sequence number. -/
structure SentPacketHistory where
  sentPackets : List String
  newestPacketAt : Nat
  numExistingPackets : Nat
  newestSequenceNumber : Nat
  deriving DecidableEq

/-- `SentPacketHistory::SentPacketHistory(int size)`. -/
def SentPacketHistory.init (size : Nat) : SentPacketHistory :=
  { sentPackets := List.replicate size ""
    newestPacketAt := 0
    numExistingPackets := 0
    newestSequenceNumber := 65535 }

/-- `SentPacketHistory::packetSent`: advances `_newestPacketAt`
cyclically, overwrites that slot, records the sequence number, and grows
`_numExistingPackets` up to the buffer size.  A sequence number other
than the expected `_newestSequenceNumber + 1` only triggers a diagnostic
log in the source; processing proceeds on the supplied value either way. -/
def packetSent (h : SentPacketHistory) (sequenceNumber : Nat)
    (packet : String) : SentPacketHistory :=
  let newestPacketAt :=
    if h.newestPacketAt = h.sentPackets.length - 1 then 0 else h.newestPacketAt + 1
  { sentPackets := h.sentPackets.set newestPacketAt packet
    newestPacketAt := newestPacketAt
    numExistingPackets :=
      if h.numExistingPackets < h.sentPackets.length then
        h.numExistingPackets + 1
      else h.numExistingPackets
    newestSequenceNumber := sequenceNumber }

/-- `SentPacketHistory::getPacket`: ring distance from the newest
sequence number (wrapping a negative difference up by `UINT16_RANGE`),
`none` if that distance reaches `_numExistingPackets`, otherwise the
payload that many slots back from `_newestPacketAt` (wrapping a negative
index up by the buffer size). -/
def getPacket (h : SentPacketHistory) (sequenceNumber : Nat) : Option String :=
  let seqDiff0 : Int := (h.newestSequenceNumber : Int) - (sequenceNumber : Int)
  let seqDiff : Int := if seqDiff0 < 0 then seqDiff0 + 65536 else seqDiff0
  if (h.numExistingPackets : Int) ≤ seqDiff then none
  else
    let packetAt0 : Int := (h.newestPacketAt : Int) - seqDiff
    let packetAt : Int :=
      if packetAt0 < 0 then packetAt0 + (h.sentPackets.length : Int) else packetAt0
    some (h.sentPackets.getD packetAt.toNat "")

/-- The history obtained from a fresh capacity-`C` `SentPacketHistory` by
`n` consecutive `packetSent` calls: the `i`-th call (0-indexed) passes
sequence number `(v + i) % 65536` and payload `p i`, so each call's
number is the 16-bit successor of the previous call's. -/
def consecutiveSends (C v : Nat) (p : Nat → String) : Nat → SentPacketHistory
  | 0 => SentPacketHistory.init C
  | n + 1 => packetSent (consecutiveSends C v p n) ((v + n) % 65536) (p n)

/-- Modelled from the spec: the spec's sentence for `getPayload` says the
returned payload sits "at the ring slot `count`-steps back from
`newestSlot`".  This definition follows that sentence literally (stepping
back `_numExistingPackets` slots instead of the ring distance), so it can
be compared against `getPacket`, which is translated from the source. -/
def getPacketSpecCountBack (h : SentPacketHistory) (sequenceNumber : Nat) :
    Option String :=
  let seqDiff0 : Int := (h.newestSequenceNumber : Int) - (sequenceNumber : Int)
  let seqDiff : Int := if seqDiff0 < 0 then seqDiff0 + 65536 else seqDiff0
  if (h.numExistingPackets : Int) ≤ seqDiff then none
  else
    let packetAt0 : Int := (h.newestPacketAt : Int) - (h.numExistingPackets : Int)
    let packetAt : Int :=
      if packetAt0 < 0 then packetAt0 + (h.sentPackets.length : Int) else packetAt0
    some (h.sentPackets.getD packetAt.toNat "")

/-- Tracker states reachable from a fresh tracker by `observe` calls with
arbitrary 16-bit sequence numbers and arbitrary sender identities. -/
inductive Reachable (G : Nat) : SeqStats → Prop
  | fresh : Reachable G freshSeqStats
  | step (s : SeqStats) (incoming senderUUID : Nat) (hi : incoming < 65536)
      (hs : Reachable G s) :
      Reachable G (sequenceNumberReceived G s incoming senderUUID)

/-- The tracker's counter invariant: every counter is non-negative and
`_numLost` dominates the size of the missing set. -/
def SeqInv (s : SeqStats) : Prop :=
  0 ≤ s.numReceived ∧ 0 ≤ s.numUnreasonable ∧ 0 ≤ s.numEarly ∧
    0 ≤ s.numLate ∧ 0 ≤ s.numRecovered ∧ 0 ≤ s.numDuplicate ∧
    (s.missingSet.card : Int) ≤ s.numLost

/-- Pointwise order on the six counters other than `_numLost`, which is
the only counter the tracker ever decrements. -/
def CtrLE (s t : SeqStats) : Prop :=
  s.numReceived ≤ t.numReceived ∧ s.numUnreasonable ≤ t.numUnreasonable ∧
    s.numEarly ≤ t.numEarly ∧ s.numLate ≤ t.numLate ∧
    s.numRecovered ≤ t.numRecovered ∧ s.numDuplicate ≤ t.numDuplicate

/-- The ring distance `newest - older` modulo `UINT16_RANGE`, always in
`[0, 65535]`: how far back a sequence number is from the newest one. -/
def ringDistance (newest older : Nat) : Nat :=
  (newest + 65536 - older) % 65536

/-- Ring-safe subtraction of `k` slots from buffer index `a` in a buffer
of `L` slots: wrap to the top of the ring if the index would go negative
(the `Nat` counterpart of `getPacket`'s `packetAt` computation). -/
def wrapSubIdx (a k L : Nat) : Nat :=
  if k ≤ a then a - k else a + L - k

end Hifi

namespace Hifi

section Characterizations

/-- First observation of a (re)initialised stream: anything is expected. -/
theorem processSequence_first (G : Nat) (s : SeqStats) (incoming : Nat)
    (h : ¬ 0 < s.numReceived) :
    processSequence G s incoming =
      { s with numReceived := s.numReceived + 1, lastReceived := incoming } := by
  simp [processSequence, h]

/-- On-time observation: only `received` and `lastReceived` move. -/
theorem processSequence_onTime (G : Nat) (s : SeqStats) (incoming : Nat)
    (h0 : 0 < s.numReceived) (h : incoming = (s.lastReceived + 1) % 65536) :
    processSequence G s incoming =
      { s with numReceived := s.numReceived + 1, lastReceived := incoming } := by
  simp [processSequence, h0, ← h]

/-- Implausible-gap observation: only `received` and `unreasonable` move. -/
theorem processSequence_unreasonable (G : Nat) (s : SeqStats) (incoming : Nat)
    (h0 : 0 < s.numReceived)
    (hne : incoming ≠ (s.lastReceived + 1) % 65536)
    (hro : |(incoming : Int) - (((s.lastReceived + 1) % 65536 : Nat) : Int)| <
      (65536 : Int) - (G : Int))
    (hgap : (G : Int) < |(incoming : Int) - (((s.lastReceived + 1) % 65536 : Nat) : Int)|) :
    processSequence G s incoming =
      { s with numReceived := s.numReceived + 1,
               numUnreasonable := s.numUnreasonable + 1 } := by
  simp only [processSequence, if_pos h0, if_neg hne, if_neg (not_le.mpr hro), if_pos hgap]

/-- Out-of-order observation with a reasonable, non-rollover gap lands in
the shared early/late tail with the uncorrected values.  The expected
value is abstracted as `e` so concrete scenarios can supply it reduced. -/
theorem processSequence_outOfOrder (G : Nat) (s : SeqStats) (incoming e : Nat)
    (he : (s.lastReceived + 1) % 65536 = e)
    (h0 : 0 < s.numReceived)
    (hne : incoming ≠ e)
    (hro : |(incoming : Int) - (e : Int)| < (65536 : Int) - (G : Int))
    (hgap : |(incoming : Int) - (e : Int)| ≤ (G : Int)) :
    processSequence G s incoming =
      handleOutOfOrder G { s with numReceived := s.numReceived + 1 } incoming
        (incoming : Int) (e : Int) := by
  subst he
  simp only [processSequence, if_pos h0, if_neg hne, if_neg (not_le.mpr hro),
    if_neg (not_lt.mpr hgap)]

/-- Early classification when the grown missing set stays within `G`. -/
theorem handleOutOfOrder_early (G : Nat) (s : SeqStats) (incoming : Nat)
    (incomingInt expectedInt : Int) (h : expectedInt < incomingInt)
    (hcard : (s.missingSet ∪ skippedSet expectedInt incomingInt).card ≤ G) :
    handleOutOfOrder G s incoming incomingInt expectedInt =
      { s with numEarly := s.numEarly + 1,
               numLost := s.numLost + (incomingInt - expectedInt),
               lastReceived := incoming,
               missingSet := s.missingSet ∪ skippedSet expectedInt incomingInt } := by
  simp only [handleOutOfOrder, if_pos h]
  exact if_neg (not_lt.mpr hcard)

/-- Late classification recovering a tracked missing number. -/
theorem handleOutOfOrder_late_recovered (G : Nat) (s : SeqStats) (incoming : Nat)
    (incomingInt expectedInt : Int) (h : ¬ expectedInt < incomingInt)
    (hmem : incoming ∈ s.missingSet) :
    handleOutOfOrder G s incoming incomingInt expectedInt =
      { s with numLate := s.numLate + 1,
               missingSet := s.missingSet.erase incoming,
               numLost := s.numLost - 1,
               numRecovered := s.numRecovered + 1 } := by
  simp only [handleOutOfOrder, if_neg h]
  exact if_pos hmem

/-- Late classification of an untracked (duplicate) number. -/
theorem handleOutOfOrder_late_duplicate (G : Nat) (s : SeqStats) (incoming : Nat)
    (incomingInt expectedInt : Int) (h : ¬ expectedInt < incomingInt)
    (hmem : incoming ∉ s.missingSet) :
    handleOutOfOrder G s incoming incomingInt expectedInt =
      { s with numLate := s.numLate + 1,
               numDuplicate := s.numDuplicate + 1 } := by
  simp only [handleOutOfOrder, if_neg h]
  exact if_neg hmem

/-- A changed sender resets everything and processes from a blank stream,
so the incoming number is always on time. -/
theorem sequenceNumberReceived_newSender (G : Nat) (s0 : SeqStats)
    (incoming senderUUID : Nat) (h : senderUUID ≠ s0.lastSenderUUID) :
    sequenceNumberReceived G s0 incoming senderUUID =
      { lastReceived := incoming
        missingSet := ∅
        numReceived := 1
        numUnreasonable := 0
        numEarly := 0
        numLate := 0
        numLost := 0
        numRecovered := 0
        numDuplicate := 0
        lastSenderUUID := senderUUID } := by
  simp only [sequenceNumberReceived, if_pos h, ne_eq, not_false_iff, if_true]
  rw [processSequence_first]
  · rfl
  · simp [SeqStats.reset]

/-- An unchanged sender skips the reset. -/
theorem sequenceNumberReceived_sameSender (G : Nat) (s0 : SeqStats)
    (incoming senderUUID : Nat) (h : senderUUID = s0.lastSenderUUID) :
    sequenceNumberReceived G s0 incoming senderUUID =
      processSequence G s0 incoming := by
  simp [sequenceNumberReceived, h]

/-- Pruning touches only the missing set; every other field is kept. -/
theorem prune_counters (G : Nat) (s : SeqStats) :
    (pruneMissingSet G s).numReceived = s.numReceived ∧
    (pruneMissingSet G s).numUnreasonable = s.numUnreasonable ∧
    (pruneMissingSet G s).numEarly = s.numEarly ∧
    (pruneMissingSet G s).numLate = s.numLate ∧
    (pruneMissingSet G s).numLost = s.numLost ∧
    (pruneMissingSet G s).numRecovered = s.numRecovered ∧
    (pruneMissingSet G s).numDuplicate = s.numDuplicate ∧
    (pruneMissingSet G s).lastReceived = s.lastReceived ∧
    (pruneMissingSet G s).lastSenderUUID = s.lastSenderUUID := by
  simp only [pruneMissingSet]
  split <;> exact ⟨rfl, rfl, rfl, rfl, rfl, rfl, rfl, rfl, rfl⟩

/-- Pruning only removes missing entries. -/
theorem prune_missing_subset (G : Nat) (s : SeqStats) :
    (pruneMissingSet G s).missingSet ⊆ s.missingSet := by
  simp only [pruneMissingSet]
  split <;> exact Finset.filter_subset _ _

/-- The skipped-number set has at most `gap` elements. -/
theorem card_skippedSet_le (expectedInt incomingInt : Int) :
    (skippedSet expectedInt incomingInt).card ≤ (incomingInt - expectedInt).toNat := by
  unfold skippedSet
  exact Finset.card_image_le.trans (by simp)

/-- Pruning preserves the counter invariant. -/
theorem pruneMissingSet_SeqInv (G : Nat) (s : SeqStats) (h : SeqInv s) :
    SeqInv (pruneMissingSet G s) := by
  obtain ⟨h1, h2, h3, h4, h5, h6, h7⟩ := h
  obtain ⟨c1, c2, c3, c4, c5, c6, c7, -, -⟩ := prune_counters G s
  have hsub : ((pruneMissingSet G s).missingSet.card : Int) ≤ (s.missingSet.card : Int) := by
    exact_mod_cast Finset.card_le_card (prune_missing_subset G s)
  exact ⟨c1 ▸ h1, c2 ▸ h2, c3 ▸ h3, c4 ▸ h4, c6 ▸ h5, c7 ▸ h6, c5 ▸ hsub.trans h7⟩

/-- The early/late tail preserves the counter invariant. -/
theorem handleOutOfOrder_SeqInv (G : Nat) (s : SeqStats) (incoming : Nat)
    (incomingInt expectedInt : Int) (h : SeqInv s) :
    SeqInv (handleOutOfOrder G s incoming incomingInt expectedInt) := by
  obtain ⟨h1, h2, h3, h4, h5, h6, h7⟩ := h
  unfold handleOutOfOrder
  dsimp only
  split
  · rename_i hlt
    have hcard : ((s.missingSet ∪ skippedSet expectedInt incomingInt).card : Int) ≤
        (s.missingSet.card : Int) + ((incomingInt - expectedInt).toNat : Int) := by
      exact_mod_cast (Finset.card_union_le _ _).trans
        (Nat.add_le_add_left (card_skippedSet_le expectedInt incomingInt) _)
    have htn : ((incomingInt - expectedInt).toNat : Int) = incomingInt - expectedInt :=
      Int.toNat_of_nonneg (by omega)
    split
    · refine pruneMissingSet_SeqInv G _ ?_
      refine ⟨?_, ?_, ?_, ?_, ?_, ?_, ?_⟩ <;> (dsimp only; omega)
    · refine ⟨?_, ?_, ?_, ?_, ?_, ?_, ?_⟩ <;> (dsimp only; omega)
  · split
    · rename_i hmem
      have hpos : 0 < s.missingSet.card := Finset.card_pos.mpr ⟨incoming, hmem⟩
      have herase : (s.missingSet.erase incoming).card = s.missingSet.card - 1 :=
        Finset.card_erase_of_mem hmem
      refine ⟨?_, ?_, ?_, ?_, ?_, ?_, ?_⟩ <;> (dsimp only; omega)
    · refine ⟨?_, ?_, ?_, ?_, ?_, ?_, ?_⟩ <;> (dsimp only; omega)

/-- Processing one number preserves the counter invariant. -/
theorem processSequence_SeqInv (G : Nat) (s : SeqStats) (incoming : Nat)
    (h : SeqInv s) : SeqInv (processSequence G s incoming) := by
  obtain ⟨h1, h2, h3, h4, h5, h6, h7⟩ := h
  have hbump : SeqInv { s with numReceived := s.numReceived + 1 } := by
    refine ⟨?_, ?_, ?_, ?_, ?_, ?_, ?_⟩ <;> (dsimp only; omega)
  unfold processSequence
  dsimp only
  split_ifs
  all_goals
    first
      | exact handleOutOfOrder_SeqInv G _ incoming _ _ hbump
      | (refine ⟨?_, ?_, ?_, ?_, ?_, ?_, ?_⟩ <;> (dsimp only; omega))

/-- `observe` preserves the counter invariant. -/
theorem sequenceNumberReceived_SeqInv (G : Nat) (s : SeqStats)
    (incoming senderUUID : Nat) (h : SeqInv s) :
    SeqInv (sequenceNumberReceived G s incoming senderUUID) := by
  unfold sequenceNumberReceived
  split
  · refine processSequence_SeqInv G _ incoming ?_
    refine ⟨le_refl 0, le_refl 0, le_refl 0, le_refl 0, le_refl 0, le_refl 0, ?_⟩
    simp [SeqStats.reset]
  · exact processSequence_SeqInv G s incoming h

/-- Every reachable state satisfies the counter invariant. -/
theorem reachable_SeqInv (G : Nat) (s : SeqStats) (h : Reachable G s) : SeqInv s := by
  induction h with
  | fresh => exact ⟨le_refl 0, le_refl 0, le_refl 0, le_refl 0, le_refl 0, le_refl 0, by simp [freshSeqStats]⟩
  | step s incoming senderUUID hi hs ih =>
      exact sequenceNumberReceived_SeqInv G s incoming senderUUID ih

/-- The six never-decremented counters grow monotonically through the
early/late tail. -/
theorem handleOutOfOrder_CtrLE (G : Nat) (s : SeqStats) (incoming : Nat)
    (incomingInt expectedInt : Int) :
    CtrLE s (handleOutOfOrder G s incoming incomingInt expectedInt) := by
  unfold handleOutOfOrder
  dsimp only
  split
  · split
    · obtain ⟨c1, c2, c3, c4, -, c6, c7, -, -⟩ := prune_counters G
        { lastReceived := incoming
          missingSet := s.missingSet ∪ skippedSet expectedInt incomingInt
          numReceived := s.numReceived
          numUnreasonable := s.numUnreasonable
          numEarly := s.numEarly + 1
          numLate := s.numLate
          numLost := s.numLost + (incomingInt - expectedInt)
          numRecovered := s.numRecovered
          numDuplicate := s.numDuplicate
          lastSenderUUID := s.lastSenderUUID }
      exact ⟨by rw [c1], by rw [c2], by rw [c3]; dsimp only; omega, by rw [c4],
        by rw [c6], by rw [c7]⟩
    · refine ⟨?_, ?_, ?_, ?_, ?_, ?_⟩ <;> (dsimp only; omega)
  · split
    · refine ⟨?_, ?_, ?_, ?_, ?_, ?_⟩ <;> (dsimp only; omega)
    · refine ⟨?_, ?_, ?_, ?_, ?_, ?_⟩ <;> (dsimp only; omega)

/-- The six never-decremented counters grow monotonically through one
processed number. -/
theorem processSequence_CtrLE (G : Nat) (s : SeqStats) (incoming : Nat) :
    CtrLE s (processSequence G s incoming) := by
  have hbump : CtrLE s { s with numReceived := s.numReceived + 1 } := by
    refine ⟨?_, ?_, ?_, ?_, ?_, ?_⟩ <;> (dsimp only; omega)
  have htrans : ∀ t u : SeqStats, CtrLE s t → CtrLE t u → CtrLE s u := by
    intro t u a b
    exact ⟨a.1.trans b.1, a.2.1.trans b.2.1, a.2.2.1.trans b.2.2.1,
      a.2.2.2.1.trans b.2.2.2.1, a.2.2.2.2.1.trans b.2.2.2.2.1,
      a.2.2.2.2.2.trans b.2.2.2.2.2⟩
  unfold processSequence
  dsimp only
  split_ifs
  all_goals
    first
      | exact htrans _ _ hbump (handleOutOfOrder_CtrLE G _ incoming _ _)
      | (refine ⟨?_, ?_, ?_, ?_, ?_, ?_⟩ <;> (dsimp only; omega))

end Characterizations

/-- C6: for every tracker state, observing the stored sender's next
expected sequence number `next(lastReceived)` increments `received` by
exactly one, moves `lastReceived` to the incoming value, and changes no
other counter and not the missing set. -/
theorem observe_onTime_frame (G : Nat) (s : SeqStats) (incoming senderUUID : Nat)
    (hs : senderUUID = s.lastSenderUUID)
    (hin : incoming = (s.lastReceived + 1) % 65536) :
    sequenceNumberReceived G s incoming senderUUID =
      { s with numReceived := s.numReceived + 1, lastReceived := incoming } := by
  rw [sequenceNumberReceived_sameSender G s incoming senderUUID hs]
  by_cases h0 : 0 < s.numReceived
  · exact processSequence_onTime G s incoming h0 hin
  · exact processSequence_first G s incoming h0

/-- Witness for C6 at a concrete state: `lastReceived = 5`, incoming `6`. -/
theorem observe_onTime_frame_witness :
    sequenceNumberReceived 1000
        { freshSeqStats with lastReceived := 5, numReceived := 3, lastSenderUUID := 7 } 6 7 =
      { freshSeqStats with lastReceived := 6, numReceived := 4, lastSenderUUID := 7 } :=
  observe_onTime_frame 1000
    { freshSeqStats with lastReceived := 5, numReceived := 3, lastSenderUUID := 7 } 6 7
    (by decide) (by decide)

/-- C3: an observation from the unchanged sender that is neither on time
nor in the rollover band, and whose absolute gap from the expected value
exceeds `G`, only increments `received` and `unreasonable`; `lastReceived`,
the missing set and every other counter are untouched. -/
theorem observe_unreasonable_frame (G : Nat) (s : SeqStats) (incoming senderUUID : Nat)
    (hs : senderUUID = s.lastSenderUUID)
    (h0 : 0 < s.numReceived)
    (hne : incoming ≠ (s.lastReceived + 1) % 65536)
    (hro : |(incoming : Int) - (((s.lastReceived + 1) % 65536 : Nat) : Int)| <
      (65536 : Int) - (G : Int))
    (hgap : (G : Int) < |(incoming : Int) - (((s.lastReceived + 1) % 65536 : Nat) : Int)|) :
    sequenceNumberReceived G s incoming senderUUID =
      { s with numReceived := s.numReceived + 1,
               numUnreasonable := s.numUnreasonable + 1 } := by
  rw [sequenceNumberReceived_sameSender G s incoming senderUUID hs]
  exact processSequence_unreasonable G s incoming h0 hne hro hgap

/-- Witness for C3: `lastReceived = 5`, incoming `2000`, gap `1998 > 1000`. -/
theorem observe_unreasonable_frame_witness :
    sequenceNumberReceived 1000
        { freshSeqStats with lastReceived := 5, numReceived := 3, lastSenderUUID := 7 } 2000 7 =
      { freshSeqStats with
        lastReceived := 5
        numReceived := 4
        numUnreasonable := 1
        lastSenderUUID := 7 } :=
  observe_unreasonable_frame 1000
    { freshSeqStats with lastReceived := 5, numReceived := 3, lastSenderUUID := 7 } 2000 7
    (by decide) (by decide) (by decide) (by decide) (by decide)

/-- C5: an observation whose sender differs from the stored identity
resets every counter and the missing set and adopts the new identity
before processing, and the processing itself behaves exactly as from the
reset state with `lastReceived` at the ring maximum 65535 (the incoming
number is treated as expected). -/
theorem observe_senderChange_reset (G : Nat) (s : SeqStats) (incoming senderUUID : Nat)
    (h : senderUUID ≠ s.lastSenderUUID) :
    sequenceNumberReceived G s incoming senderUUID =
      { lastReceived := incoming
        missingSet := ∅
        numReceived := 1
        numUnreasonable := 0
        numEarly := 0
        numLate := 0
        numLost := 0
        numRecovered := 0
        numDuplicate := 0
        lastSenderUUID := senderUUID } ∧
    sequenceNumberReceived G s incoming senderUUID =
      sequenceNumberReceived G { freshSeqStats with lastSenderUUID := senderUUID }
        incoming senderUUID := by
  refine ⟨sequenceNumberReceived_newSender G s incoming senderUUID h, ?_⟩
  rw [sequenceNumberReceived_newSender G s incoming senderUUID h,
    sequenceNumberReceived_sameSender G _ incoming senderUUID rfl,
    processSequence_first G _ incoming (by simp [freshSeqStats])]
  rfl

/-- Witness for C5: a dirty state observed under a new sender identity. -/
theorem observe_senderChange_reset_witness :
    (sequenceNumberReceived 1000
        { freshSeqStats with lastReceived := 42, missingSet := {7, 9}, numReceived := 12, numUnreasonable := 1, numEarly := 2, numLate := 3, numLost := 2, numRecovered := 1, numDuplicate := 1, lastSenderUUID := 7 } 5 8 =
      { freshSeqStats with lastReceived := 5, missingSet := ∅, numReceived := 1, lastSenderUUID := 8 }) ∧
    (sequenceNumberReceived 1000
        { freshSeqStats with lastReceived := 42, missingSet := {7, 9}, numReceived := 12, numUnreasonable := 1, numEarly := 2, numLate := 3, numLost := 2, numRecovered := 1, numDuplicate := 1, lastSenderUUID := 7 } 5 8 =
      sequenceNumberReceived 1000 { freshSeqStats with lastSenderUUID := 8 } 5 8) :=
  observe_senderChange_reset 1000
    { freshSeqStats with lastReceived := 42, missingSet := {7, 9}, numReceived := 12, numUnreasonable := 1, numEarly := 2, numLate := 3, numLost := 2, numRecovered := 1, numDuplicate := 1, lastSenderUUID := 7 } 5 8 (by decide)

/-- C7: `pruneMissingSet` removes exactly the claimed entries — with
`cutoff = lastReceived - G` as a plain integer, an entry `x` is removed
precisely when `cutoff ≥ 0` and (`x > lastReceived` or `x < cutoff`), or
`cutoff < 0` and `lastReceived < x < cutoff + 65536` — and pruning
changes no counter (in particular not `lost`). -/
theorem pruneMissingSet_spec (G : Nat) (s : SeqStats) (x : Nat)
    (hlr : s.lastReceived ≤ 65535) (hG : G ≤ 65536) :
    (x ∈ (pruneMissingSet G s).missingSet ↔
      x ∈ s.missingSet ∧
        ¬(if 0 ≤ (s.lastReceived : Int) - (G : Int) then
            s.lastReceived < x ∨ (x : Int) < (s.lastReceived : Int) - (G : Int)
          else
            s.lastReceived < x ∧
              (x : Int) < (s.lastReceived : Int) - (G : Int) + 65536)) ∧
    (pruneMissingSet G s).numLost = s.numLost ∧
    (pruneMissingSet G s).numReceived = s.numReceived ∧
    (pruneMissingSet G s).numUnreasonable = s.numUnreasonable ∧
    (pruneMissingSet G s).numEarly = s.numEarly ∧
    (pruneMissingSet G s).numLate = s.numLate ∧
    (pruneMissingSet G s).numRecovered = s.numRecovered ∧
    (pruneMissingSet G s).numDuplicate = s.numDuplicate ∧
    (pruneMissingSet G s).lastReceived = s.lastReceived ∧
    (pruneMissingSet G s).lastSenderUUID = s.lastSenderUUID := by
  refine ⟨?_, ?_⟩
  · by_cases hc : 0 ≤ (s.lastReceived : Int) - (G : Int)
    · rw [if_pos hc]
      simp only [pruneMissingSet, if_pos hc, Finset.mem_filter, toU16]
      refine and_congr_right fun _ => not_congr (or_congr Iff.rfl ?_)
      omega
    · rw [if_neg hc]
      simp only [pruneMissingSet, if_neg hc, Finset.mem_filter, toU16]
      refine and_congr_right fun _ => not_congr (and_congr Iff.rfl ?_)
      omega
  · simp only [pruneMissingSet]
    split <;> exact ⟨rfl, rfl, rfl, rfl, rfl, rfl, rfl, rfl, rfl⟩

/-- Witness for C7: `lastReceived = 500`, `G = 1000`, so the recent window
wraps; the entry `600` sits in the stale band and is pruned. -/
theorem pruneMissingSet_spec_witness :
    (600 ∈ (pruneMissingSet 1000 { freshSeqStats with lastReceived := 500, missingSet := {100, 400, 600}, numLost := 5 }).missingSet ↔
      600 ∈ ({100, 400, 600} : Finset Nat) ∧
        ¬(if 0 ≤ (500 : Int) - (1000 : Int) then
            500 < 600 ∨ (600 : Int) < (500 : Int) - (1000 : Int)
          else
            500 < 600 ∧ (600 : Int) < (500 : Int) - (1000 : Int) + 65536)) ∧
    (pruneMissingSet 1000 { freshSeqStats with lastReceived := 500, missingSet := {100, 400, 600}, numLost := 5 }).numLost = 5 ∧
    (pruneMissingSet 1000 { freshSeqStats with lastReceived := 500, missingSet := {100, 400, 600}, numLost := 5 }).numReceived = 0 ∧
    (pruneMissingSet 1000 { freshSeqStats with lastReceived := 500, missingSet := {100, 400, 600}, numLost := 5 }).numUnreasonable = 0 ∧
    (pruneMissingSet 1000 { freshSeqStats with lastReceived := 500, missingSet := {100, 400, 600}, numLost := 5 }).numEarly = 0 ∧
    (pruneMissingSet 1000 { freshSeqStats with lastReceived := 500, missingSet := {100, 400, 600}, numLost := 5 }).numLate = 0 ∧
    (pruneMissingSet 1000 { freshSeqStats with lastReceived := 500, missingSet := {100, 400, 600}, numLost := 5 }).numRecovered = 0 ∧
    (pruneMissingSet 1000 { freshSeqStats with lastReceived := 500, missingSet := {100, 400, 600}, numLost := 5 }).numDuplicate = 0 ∧
    (pruneMissingSet 1000 { freshSeqStats with lastReceived := 500, missingSet := {100, 400, 600}, numLost := 5 }).lastReceived = 500 ∧
    (pruneMissingSet 1000 { freshSeqStats with lastReceived := 500, missingSet := {100, 400, 600}, numLost := 5 }).lastSenderUUID = 0 :=
  pruneMissingSet_spec 1000
    { freshSeqStats with lastReceived := 500, missingSet := {100, 400, 600}, numLost := 5 }
    600 (by decide) (by decide)

/-- C1: from a fresh tracker with one fixed sender, observing 1, 2, 5,
3, 3 yields after the third call `received = 3`, `early = 1`, `lost = 2`,
`missing = {3,4}`, `lastReceived = 5`; after the fourth `late = 1`,
`recovered = 1`, `lost = 1`, `missing = {4}`; after the fifth
`duplicate = 1`, `recovered` still 1, and 3 is not re-added to `missing`. -/
theorem observe_scenario_BCD (G X : Nat) (h3 : 3 ≤ G) (hG : G ≤ 65532) :
    ((sequenceNumberReceived G (sequenceNumberReceived G
        (sequenceNumberReceived G freshSeqStats 1 X) 2 X) 5 X).numReceived = 3 ∧
      (sequenceNumberReceived G (sequenceNumberReceived G
        (sequenceNumberReceived G freshSeqStats 1 X) 2 X) 5 X).numEarly = 1 ∧
      (sequenceNumberReceived G (sequenceNumberReceived G
        (sequenceNumberReceived G freshSeqStats 1 X) 2 X) 5 X).numLost = 2 ∧
      (sequenceNumberReceived G (sequenceNumberReceived G
        (sequenceNumberReceived G freshSeqStats 1 X) 2 X) 5 X).missingSet = {3, 4} ∧
      (sequenceNumberReceived G (sequenceNumberReceived G
        (sequenceNumberReceived G freshSeqStats 1 X) 2 X) 5 X).lastReceived = 5) ∧
    ((sequenceNumberReceived G (sequenceNumberReceived G (sequenceNumberReceived G
        (sequenceNumberReceived G freshSeqStats 1 X) 2 X) 5 X) 3 X).numLate = 1 ∧
      (sequenceNumberReceived G (sequenceNumberReceived G (sequenceNumberReceived G
        (sequenceNumberReceived G freshSeqStats 1 X) 2 X) 5 X) 3 X).numRecovered = 1 ∧
      (sequenceNumberReceived G (sequenceNumberReceived G (sequenceNumberReceived G
        (sequenceNumberReceived G freshSeqStats 1 X) 2 X) 5 X) 3 X).numLost = 1 ∧
      (sequenceNumberReceived G (sequenceNumberReceived G (sequenceNumberReceived G
        (sequenceNumberReceived G freshSeqStats 1 X) 2 X) 5 X) 3 X).missingSet = {4}) ∧
    ((sequenceNumberReceived G (sequenceNumberReceived G (sequenceNumberReceived G
        (sequenceNumberReceived G (sequenceNumberReceived G freshSeqStats 1 X) 2 X)
        5 X) 3 X) 3 X).numDuplicate = 1 ∧
      (sequenceNumberReceived G (sequenceNumberReceived G (sequenceNumberReceived G
        (sequenceNumberReceived G (sequenceNumberReceived G freshSeqStats 1 X) 2 X)
        5 X) 3 X) 3 X).numRecovered = 1 ∧
      3 ∉ (sequenceNumberReceived G (sequenceNumberReceived G (sequenceNumberReceived G
        (sequenceNumberReceived G (sequenceNumberReceived G freshSeqStats 1 X) 2 X)
        5 X) 3 X) 3 X).missingSet) := by
  have e1 : sequenceNumberReceived G freshSeqStats 1 X =
      (⟨1, ∅, 1, 0, 0, 0, 0, 0, 0, X⟩ : SeqStats) := by
    by_cases hX : X = 0
    · subst hX
      rw [sequenceNumberReceived_sameSender G freshSeqStats 1 0 rfl,
        processSequence_first G freshSeqStats 1 (by decide)]
      rfl
    · rw [sequenceNumberReceived_newSender G freshSeqStats 1 X hX]
  have e2 : sequenceNumberReceived G (⟨1, ∅, 1, 0, 0, 0, 0, 0, 0, X⟩ : SeqStats) 2 X =
      (⟨2, ∅, 2, 0, 0, 0, 0, 0, 0, X⟩ : SeqStats) := by
    have h0 : (0 : Int) < 1 := by decide
    have hin : (2 : Nat) = (1 + 1) % 65536 := by decide
    rw [sequenceNumberReceived_sameSender G (⟨1, ∅, 1, 0, 0, 0, 0, 0, 0, X⟩ : SeqStats) 2 X rfl,
      processSequence_onTime G (⟨1, ∅, 1, 0, 0, 0, 0, 0, 0, X⟩ : SeqStats) 2 h0 hin]
    rfl
  have e3 : sequenceNumberReceived G (⟨2, ∅, 2, 0, 0, 0, 0, 0, 0, X⟩ : SeqStats) 5 X =
      (⟨5, {3, 4}, 3, 0, 1, 0, 2, 0, 0, X⟩ : SeqStats) := by
    have h0 : (0 : Int) < 2 := by decide
    have hne : (5 : Nat) ≠ 3 := by decide
    have hro : |((5 : Nat) : Int) - ((3 : Nat) : Int)| <
        (65536 : Int) - (G : Int) := by
      norm_num
      omega
    have hgap : |((5 : Nat) : Int) - ((3 : Nat) : Int)| ≤ (G : Int) := by
      norm_num
      omega
    rw [sequenceNumberReceived_sameSender G (⟨2, ∅, 2, 0, 0, 0, 0, 0, 0, X⟩ : SeqStats) 5 X rfl,
      processSequence_outOfOrder G (⟨2, ∅, 2, 0, 0, 0, 0, 0, 0, X⟩ : SeqStats) 5 3
        (by decide : (2 + 1) % 65536 = 3) h0 hne hro hgap]
    show handleOutOfOrder G (⟨2, ∅, 3, 0, 0, 0, 0, 0, 0, X⟩ : SeqStats) 5 5 3 = _
    have hlt : (3 : Int) < 5 := by decide
    have hcard : ((∅ : Finset Nat) ∪ skippedSet 3 5).card ≤ G :=
      (by decide : ((∅ : Finset Nat) ∪ skippedSet 3 5).card ≤ 3).trans h3
    rw [handleOutOfOrder_early G (⟨2, ∅, 3, 0, 0, 0, 0, 0, 0, X⟩ : SeqStats) 5 5 3
      hlt hcard]
    rfl
  have e4 : sequenceNumberReceived G (⟨5, {3, 4}, 3, 0, 1, 0, 2, 0, 0, X⟩ : SeqStats) 3 X =
      (⟨5, {4}, 4, 0, 1, 1, 1, 1, 0, X⟩ : SeqStats) := by
    have h0 : (0 : Int) < 3 := by decide
    have hne : (3 : Nat) ≠ 6 := by decide
    have hro : |((3 : Nat) : Int) - ((6 : Nat) : Int)| <
        (65536 : Int) - (G : Int) := by
      norm_num
      omega
    have hgap : |((3 : Nat) : Int) - ((6 : Nat) : Int)| ≤ (G : Int) := by
      norm_num
      omega
    rw [sequenceNumberReceived_sameSender G (⟨5, {3, 4}, 3, 0, 1, 0, 2, 0, 0, X⟩ : SeqStats) 3 X rfl,
      processSequence_outOfOrder G (⟨5, {3, 4}, 3, 0, 1, 0, 2, 0, 0, X⟩ : SeqStats) 3 6
        (by decide : (5 + 1) % 65536 = 6) h0 hne hro hgap]
    show handleOutOfOrder G (⟨5, {3, 4}, 4, 0, 1, 0, 2, 0, 0, X⟩ : SeqStats) 3 3 6 = _
    have hnlt : ¬ (6 : Int) < 3 := by decide
    have hmem : (3 : Nat) ∈ ({3, 4} : Finset Nat) := by decide
    rw [handleOutOfOrder_late_recovered G
      (⟨5, {3, 4}, 4, 0, 1, 0, 2, 0, 0, X⟩ : SeqStats) 3 3 6 hnlt hmem]
    rfl
  have e5 : sequenceNumberReceived G (⟨5, {4}, 4, 0, 1, 1, 1, 1, 0, X⟩ : SeqStats) 3 X =
      (⟨5, {4}, 5, 0, 1, 2, 1, 1, 1, X⟩ : SeqStats) := by
    have h0 : (0 : Int) < 4 := by decide
    have hne : (3 : Nat) ≠ 6 := by decide
    have hro : |((3 : Nat) : Int) - ((6 : Nat) : Int)| <
        (65536 : Int) - (G : Int) := by
      norm_num
      omega
    have hgap : |((3 : Nat) : Int) - ((6 : Nat) : Int)| ≤ (G : Int) := by
      norm_num
      omega
    rw [sequenceNumberReceived_sameSender G (⟨5, {4}, 4, 0, 1, 1, 1, 1, 0, X⟩ : SeqStats) 3 X rfl,
      processSequence_outOfOrder G (⟨5, {4}, 4, 0, 1, 1, 1, 1, 0, X⟩ : SeqStats) 3 6
        (by decide : (5 + 1) % 65536 = 6) h0 hne hro hgap]
    show handleOutOfOrder G (⟨5, {4}, 5, 0, 1, 1, 1, 1, 0, X⟩ : SeqStats) 3 3 6 = _
    have hnlt : ¬ (6 : Int) < 3 := by decide
    have hmem : (3 : Nat) ∉ ({4} : Finset Nat) := by decide
    rw [handleOutOfOrder_late_duplicate G
      (⟨5, {4}, 5, 0, 1, 1, 1, 1, 0, X⟩ : SeqStats) 3 3 6 hnlt hmem]
    rfl
  rw [e1, e2, e3, e4, e5]
  exact ⟨⟨rfl, rfl, rfl, rfl, rfl⟩, ⟨rfl, rfl, rfl, rfl⟩, rfl, rfl, by simp⟩

/-- Witness discharging C1's bounds on the gap constant at `G = 1000`. -/
theorem observe_scenario_BCD_witness :
    ((sequenceNumberReceived 1000 (sequenceNumberReceived 1000
        (sequenceNumberReceived 1000 freshSeqStats 1 1) 2 1) 5 1).numReceived = 3 ∧
      (sequenceNumberReceived 1000 (sequenceNumberReceived 1000
        (sequenceNumberReceived 1000 freshSeqStats 1 1) 2 1) 5 1).numEarly = 1 ∧
      (sequenceNumberReceived 1000 (sequenceNumberReceived 1000
        (sequenceNumberReceived 1000 freshSeqStats 1 1) 2 1) 5 1).numLost = 2 ∧
      (sequenceNumberReceived 1000 (sequenceNumberReceived 1000
        (sequenceNumberReceived 1000 freshSeqStats 1 1) 2 1) 5 1).missingSet = {3, 4} ∧
      (sequenceNumberReceived 1000 (sequenceNumberReceived 1000
        (sequenceNumberReceived 1000 freshSeqStats 1 1) 2 1) 5 1).lastReceived = 5) ∧
    ((sequenceNumberReceived 1000 (sequenceNumberReceived 1000 (sequenceNumberReceived 1000
        (sequenceNumberReceived 1000 freshSeqStats 1 1) 2 1) 5 1) 3 1).numLate = 1 ∧
      (sequenceNumberReceived 1000 (sequenceNumberReceived 1000 (sequenceNumberReceived 1000
        (sequenceNumberReceived 1000 freshSeqStats 1 1) 2 1) 5 1) 3 1).numRecovered = 1 ∧
      (sequenceNumberReceived 1000 (sequenceNumberReceived 1000 (sequenceNumberReceived 1000
        (sequenceNumberReceived 1000 freshSeqStats 1 1) 2 1) 5 1) 3 1).numLost = 1 ∧
      (sequenceNumberReceived 1000 (sequenceNumberReceived 1000 (sequenceNumberReceived 1000
        (sequenceNumberReceived 1000 freshSeqStats 1 1) 2 1) 5 1) 3 1).missingSet = {4}) ∧
    ((sequenceNumberReceived 1000 (sequenceNumberReceived 1000 (sequenceNumberReceived 1000
        (sequenceNumberReceived 1000 (sequenceNumberReceived 1000 freshSeqStats 1 1) 2 1)
        5 1) 3 1) 3 1).numDuplicate = 1 ∧
      (sequenceNumberReceived 1000 (sequenceNumberReceived 1000 (sequenceNumberReceived 1000
        (sequenceNumberReceived 1000 (sequenceNumberReceived 1000 freshSeqStats 1 1) 2 1)
        5 1) 3 1) 3 1).numRecovered = 1 ∧
      3 ∉ (sequenceNumberReceived 1000 (sequenceNumberReceived 1000 (sequenceNumberReceived 1000
        (sequenceNumberReceived 1000 (sequenceNumberReceived 1000 freshSeqStats 1 1) 2 1)
        5 1) 3 1) 3 1).missingSet) :=
  observe_scenario_BCD 1000 1 (by decide) (by decide)

/-- C4: from a fresh tracker, observing 65535 and then 3 leaves
`unreasonable` at 0: the second observation is classified early via the
16-bit wraparound of the expected value (corrected gap 3), so `lost`
grows by 3, `missing` becomes `{0,1,2}` and `lastReceived` becomes 3. -/
theorem observe_rollover_scenario (G X : Nat) (h3 : 3 ≤ G) (hG : G ≤ 65532) :
    (sequenceNumberReceived G (sequenceNumberReceived G freshSeqStats 65535 X) 3 X).numUnreasonable = 0 ∧
    (sequenceNumberReceived G (sequenceNumberReceived G freshSeqStats 65535 X) 3 X).numEarly = 1 ∧
    (sequenceNumberReceived G (sequenceNumberReceived G freshSeqStats 65535 X) 3 X).numLost = 3 ∧
    (sequenceNumberReceived G (sequenceNumberReceived G freshSeqStats 65535 X) 3 X).missingSet = {0, 1, 2} ∧
    (sequenceNumberReceived G (sequenceNumberReceived G freshSeqStats 65535 X) 3 X).lastReceived = 3 ∧
    (sequenceNumberReceived G (sequenceNumberReceived G freshSeqStats 65535 X) 3 X).numReceived = 2 := by
  have e1 : sequenceNumberReceived G freshSeqStats 65535 X =
      (⟨65535, ∅, 1, 0, 0, 0, 0, 0, 0, X⟩ : SeqStats) := by
    by_cases hX : X = 0
    · subst hX
      rw [sequenceNumberReceived_sameSender G freshSeqStats 65535 0 rfl,
        processSequence_first G freshSeqStats 65535 (by decide)]
      rfl
    · rw [sequenceNumberReceived_newSender G freshSeqStats 65535 X hX]
  have e2 : sequenceNumberReceived G (⟨65535, ∅, 1, 0, 0, 0, 0, 0, 0, X⟩ : SeqStats) 3 X =
      (⟨3, {0, 1, 2}, 2, 0, 1, 0, 3, 0, 0, X⟩ : SeqStats) := by
    have h0 : (0 : Int) < 1 := by decide
    have hne : (3 : Nat) ≠ 0 := by decide
    have hro : |((3 : Nat) : Int) - ((0 : Nat) : Int)| <
        (65536 : Int) - (G : Int) := by
      norm_num
      omega
    have hgap : |((3 : Nat) : Int) - ((0 : Nat) : Int)| ≤ (G : Int) := by
      norm_num
      omega
    rw [sequenceNumberReceived_sameSender G (⟨65535, ∅, 1, 0, 0, 0, 0, 0, 0, X⟩ : SeqStats) 3 X rfl,
      processSequence_outOfOrder G (⟨65535, ∅, 1, 0, 0, 0, 0, 0, 0, X⟩ : SeqStats) 3 0
        (by decide : (65535 + 1) % 65536 = 0) h0 hne hro hgap]
    show handleOutOfOrder G (⟨65535, ∅, 2, 0, 0, 0, 0, 0, 0, X⟩ : SeqStats) 3 3 0 = _
    have hlt : (0 : Int) < 3 := by decide
    have hcard : ((∅ : Finset Nat) ∪ skippedSet 0 3).card ≤ G :=
      (by decide : ((∅ : Finset Nat) ∪ skippedSet 0 3).card ≤ 3).trans h3
    rw [handleOutOfOrder_early G (⟨65535, ∅, 2, 0, 0, 0, 0, 0, 0, X⟩ : SeqStats) 3 3 0
      hlt hcard]
    rfl
  rw [e1, e2]
  exact ⟨rfl, rfl, rfl, rfl, rfl, rfl⟩

/-- Witness discharging C4's bounds on the gap constant at `G = 1000`. -/
theorem observe_rollover_scenario_witness :
    (sequenceNumberReceived 1000 (sequenceNumberReceived 1000 freshSeqStats 65535 1) 3 1).numUnreasonable = 0 ∧
    (sequenceNumberReceived 1000 (sequenceNumberReceived 1000 freshSeqStats 65535 1) 3 1).numEarly = 1 ∧
    (sequenceNumberReceived 1000 (sequenceNumberReceived 1000 freshSeqStats 65535 1) 3 1).numLost = 3 ∧
    (sequenceNumberReceived 1000 (sequenceNumberReceived 1000 freshSeqStats 65535 1) 3 1).missingSet = {0, 1, 2} ∧
    (sequenceNumberReceived 1000 (sequenceNumberReceived 1000 freshSeqStats 65535 1) 3 1).lastReceived = 3 ∧
    (sequenceNumberReceived 1000 (sequenceNumberReceived 1000 freshSeqStats 65535 1) 3 1).numReceived = 2 :=
  observe_rollover_scenario 1000 1 (by decide) (by decide)

/-- C8 counterexample: `lost` does decrease across an `observe` call with
an unchanged sender — observing 1, 2, 5 (sender 1, `G = 1000`) leaves
`lost = 2`, and the late recovery of 3 from the same sender drops it to 1,
so not every counter is monotonic. -/
theorem counters_monotonic_counterexample :
    1 = (sequenceNumberReceived 1000 (sequenceNumberReceived 1000
        (sequenceNumberReceived 1000 freshSeqStats 1 1) 2 1) 5 1).lastSenderUUID ∧
    (sequenceNumberReceived 1000 (sequenceNumberReceived 1000 (sequenceNumberReceived 1000
        (sequenceNumberReceived 1000 freshSeqStats 1 1) 2 1) 5 1) 3 1).numLost <
      (sequenceNumberReceived 1000 (sequenceNumberReceived 1000
        (sequenceNumberReceived 1000 freshSeqStats 1 1) 2 1) 5 1).numLost := by
  decide

/-- C8 (amended): across an `observe` call with an unchanged sender from a
reachable state, `received`, `unreasonable`, `early`, `late`, `recovered`
and `duplicate` never decrease; `lost` may decrease (by one, on a
recovery) but every counter is non-negative before and after the call. -/
theorem counters_monotonic_amended (G : Nat) (s : SeqStats)
    (incoming senderUUID : Nat) (hreach : Reachable G s)
    (hs : senderUUID = s.lastSenderUUID) :
    (s.numReceived ≤ (sequenceNumberReceived G s incoming senderUUID).numReceived ∧
      s.numUnreasonable ≤ (sequenceNumberReceived G s incoming senderUUID).numUnreasonable ∧
      s.numEarly ≤ (sequenceNumberReceived G s incoming senderUUID).numEarly ∧
      s.numLate ≤ (sequenceNumberReceived G s incoming senderUUID).numLate ∧
      s.numRecovered ≤ (sequenceNumberReceived G s incoming senderUUID).numRecovered ∧
      s.numDuplicate ≤ (sequenceNumberReceived G s incoming senderUUID).numDuplicate) ∧
    (0 ≤ s.numReceived ∧ 0 ≤ s.numUnreasonable ∧ 0 ≤ s.numEarly ∧ 0 ≤ s.numLate ∧
      0 ≤ s.numLost ∧ 0 ≤ s.numRecovered ∧ 0 ≤ s.numDuplicate) ∧
    0 ≤ (sequenceNumberReceived G s incoming senderUUID).numLost := by
  have hinv := reachable_SeqInv G s hreach
  have hinv' := sequenceNumberReceived_SeqInv G s incoming senderUUID hinv
  obtain ⟨h1, h2, h3, h4, h5, h6, h7⟩ := hinv
  obtain ⟨-, -, -, -, -, -, h7'⟩ := hinv'
  have hmono : CtrLE s (sequenceNumberReceived G s incoming senderUUID) := by
    rw [sequenceNumberReceived_sameSender G s incoming senderUUID hs]
    exact processSequence_CtrLE G s incoming
  obtain ⟨m1, m2, m3, m4, m5, m6⟩ := hmono
  have hcard : (0 : Int) ≤ (s.missingSet.card : Int) := by positivity
  have hcard' : (0 : Int) ≤
      ((sequenceNumberReceived G s incoming senderUUID).missingSet.card : Int) := by
    positivity
  exact ⟨⟨m1, m2, m3, m4, m5, m6⟩,
    ⟨h1, h2, h3, h4, hcard.trans h7, h5, h6⟩, hcard'.trans h7'⟩

/-- Witness for C8's amended statement: the fresh tracker under its
stored null sender at `G = 1000`, incoming 7. -/
theorem counters_monotonic_amended_witness :
    ((freshSeqStats.numReceived ≤ (sequenceNumberReceived 1000 freshSeqStats 7 0).numReceived ∧
      freshSeqStats.numUnreasonable ≤ (sequenceNumberReceived 1000 freshSeqStats 7 0).numUnreasonable ∧
      freshSeqStats.numEarly ≤ (sequenceNumberReceived 1000 freshSeqStats 7 0).numEarly ∧
      freshSeqStats.numLate ≤ (sequenceNumberReceived 1000 freshSeqStats 7 0).numLate ∧
      freshSeqStats.numRecovered ≤ (sequenceNumberReceived 1000 freshSeqStats 7 0).numRecovered ∧
      freshSeqStats.numDuplicate ≤ (sequenceNumberReceived 1000 freshSeqStats 7 0).numDuplicate) ∧
    (0 ≤ freshSeqStats.numReceived ∧ 0 ≤ freshSeqStats.numUnreasonable ∧
      0 ≤ freshSeqStats.numEarly ∧ 0 ≤ freshSeqStats.numLate ∧
      0 ≤ freshSeqStats.numLost ∧ 0 ≤ freshSeqStats.numRecovered ∧
      0 ≤ freshSeqStats.numDuplicate) ∧
    0 ≤ (sequenceNumberReceived 1000 freshSeqStats 7 0).numLost) :=
  counters_monotonic_amended 1000 freshSeqStats 7 0 Reachable.fresh rfl

/-- C10: at every reachable tracker state, `lost` dominates the size of
the missing set, and in particular `lost` never goes negative. -/
theorem lost_dominates_missing (G : Nat) (s : SeqStats) (h : Reachable G s) :
    ((s.missingSet.card : Int) ≤ s.numLost ∧ 0 ≤ (s.missingSet.card : Int)) ∧
      0 ≤ s.numLost := by
  obtain ⟨-, -, -, -, -, -, h7⟩ := reachable_SeqInv G s h
  have hcard : (0 : Int) ≤ (s.missingSet.card : Int) := by positivity
  exact ⟨⟨h7, hcard⟩, hcard.trans h7⟩

/-- Witness for C10 at the fresh tracker with `G = 1000`. -/
theorem lost_dominates_missing_witness :
    (((freshSeqStats.missingSet.card : Int) ≤ freshSeqStats.numLost ∧
      0 ≤ (freshSeqStats.missingSet.card : Int)) ∧
      0 ≤ freshSeqStats.numLost) :=
  lost_dominates_missing 1000 freshSeqStats Reachable.fresh

/-- C9 counterexample: after recording 0 ↦ "a" and 1 ↦ "b" in a
capacity-3 history, the lookup of 1 has ring distance 0 < count = 2, and
`getPacket` returns "b" (the slot `distance` steps back), while the slot
"count steps back from newestSlot" named by the claim holds the default
empty payload. -/
theorem getPacket_countBack_counterexample :
    ringDistance
        (packetSent (packetSent (SentPacketHistory.init 3) 0 "a") 1 "b").newestSequenceNumber 1 <
      (packetSent (packetSent (SentPacketHistory.init 3) 0 "a") 1 "b").numExistingPackets ∧
    getPacket (packetSent (packetSent (SentPacketHistory.init 3) 0 "a") 1 "b") 1 = some "b" ∧
    getPacketSpecCountBack (packetSent (packetSent (SentPacketHistory.init 3) 0 "a") 1 "b") 1 =
      some "" ∧
    some ("b" : String) ≠ some ("" : String) := by
  refine ⟨by decide, by decide, by decide, by decide⟩

/-- `getPacket` evaluated in `Nat` terms: `none` once the ring distance
reaches `count`, else the payload `ringDistance` ring-safe steps back
from the write cursor. -/
theorem getPacket_eq (h : SentPacketHistory) (q : Nat) (hq : q < 65536)
    (hn : h.newestSequenceNumber < 65536) :
    getPacket h q =
      if h.numExistingPackets ≤ ringDistance h.newestSequenceNumber q then none
      else
        some (h.sentPackets.getD
          (wrapSubIdx h.newestPacketAt (ringDistance h.newestSequenceNumber q)
            h.sentPackets.length) "") := by
  unfold getPacket ringDistance wrapSubIdx
  dsimp only
  split_ifs <;>
    first
      | rfl
      | (exfalso; omega)
      | exact congrArg some (congrArg (fun i => h.sentPackets.getD i "") (by omega))

/-- C9 (amended): when the ring distance from the newest sequence number
is below `count`, `getPacket` returns the payload at the ring slot
exactly that distance (not `count`) steps back from `newestSlot`,
computed with ring-safe subtraction. -/
theorem getPacket_ringDistance_slot (h : SentPacketHistory) (q : Nat)
    (hq : q < 65536) (hn : h.newestSequenceNumber < 65536)
    (hd : ringDistance h.newestSequenceNumber q < h.numExistingPackets) :
    getPacket h q =
      some (h.sentPackets.getD
        (wrapSubIdx h.newestPacketAt (ringDistance h.newestSequenceNumber q)
          h.sentPackets.length) "") := by
  rw [getPacket_eq h q hq hn, if_neg (not_le.mpr hd)]

/-- Witness for C9's amended statement on the concrete two-record
history. -/
theorem getPacket_ringDistance_slot_witness :
    getPacket (packetSent (packetSent (SentPacketHistory.init 3) 0 "a") 1 "b") 1 =
      some ((packetSent (packetSent (SentPacketHistory.init 3) 0 "a") 1 "b").sentPackets.getD
        (wrapSubIdx
          (packetSent (packetSent (SentPacketHistory.init 3) 0 "a") 1 "b").newestPacketAt
          (ringDistance
            (packetSent (packetSent (SentPacketHistory.init 3) 0 "a") 1 "b").newestSequenceNumber 1)
          (packetSent (packetSent (SentPacketHistory.init 3) 0 "a") 1 "b").sentPackets.length) "") :=
  getPacket_ringDistance_slot (packetSent (packetSent (SentPacketHistory.init 3) 0 "a") 1 "b") 1
    (by decide) (by decide) (by decide)

/-- `getD` after overwriting the same slot. -/
theorem getD_set_self (l : List String) (i : Nat) (x : String) (h : i < l.length) :
    (l.set i x).getD i "" = x := by
  rw [List.getD_eq_getElem?_getD, List.getElem?_set_self (by simpa using h)]
  rfl

/-- `getD` after overwriting a different slot. -/
theorem getD_set_ne (l : List String) (i j : Nat) (x : String) (h : i ≠ j) :
    (l.set i x).getD j "" = l.getD j "" := by
  rw [List.getD_eq_getElem?_getD, List.getElem?_set_ne h, ← List.getD_eq_getElem?_getD]

/-- Structural invariant of a consecutively recorded history: the buffer
keeps its capacity, the write cursor stays in range, `count` saturates at
the capacity, the newest sequence number is the last one recorded, and
the slot `k` ring-steps back from the cursor holds the payload of the
`k`-th most recent record, for every `k` below `count`. -/
theorem consecutiveSends_inv (C v : Nat) (p : Nat → String) (hC : 1 ≤ C) :
    ∀ n : Nat, 1 ≤ n →
      (consecutiveSends C v p n).sentPackets.length = C ∧
      (consecutiveSends C v p n).newestPacketAt < C ∧
      (consecutiveSends C v p n).numExistingPackets = min n C ∧
      (consecutiveSends C v p n).newestSequenceNumber = (v + n - 1) % 65536 ∧
      ∀ k : Nat, k < min n C →
        (consecutiveSends C v p n).sentPackets.getD
          (wrapSubIdx (consecutiveSends C v p n).newestPacketAt k C) "" =
          p (n - 1 - k) := by
  intro n
  induction n with
  | zero => intro hfalse; exact absurd hfalse (by decide)
  | succ n ih =>
    intro _
    by_cases hn : 1 ≤ n
    · obtain ⟨ihlen, ihat, ihcnt, ihseq, ihslot⟩ := ih hn
      refine ⟨?_, ?_, ?_, ?_, ?_⟩
      · simp only [consecutiveSends, packetSent, List.length_set]
        exact ihlen
      · simp only [consecutiveSends, packetSent, List.length_set, ihlen]
        split <;> omega
      · simp only [consecutiveSends, packetSent, List.length_set, ihlen, ihcnt]
        split <;> omega
      · simp only [consecutiveSends, packetSent]
        congr 1
      · intro k hk
        simp only [consecutiveSends, packetSent, List.length_set, ihlen] at hk ⊢
        match k with
        | 0 =>
          have hwz : wrapSubIdx (if (consecutiveSends C v p n).newestPacketAt = C - 1 then 0
              else (consecutiveSends C v p n).newestPacketAt + 1) 0 C =
              (if (consecutiveSends C v p n).newestPacketAt = C - 1 then 0
              else (consecutiveSends C v p n).newestPacketAt + 1) := by
            simp [wrapSubIdx]
          rw [hwz, getD_set_self _ _ _ (by rw [ihlen]; split <;> omega)]
          exact congrArg p (by omega)
        | k' + 1 =>
          have hk' : k' < min n C := by omega
          have hidx : wrapSubIdx (if (consecutiveSends C v p n).newestPacketAt = C - 1 then 0
              else (consecutiveSends C v p n).newestPacketAt + 1) (k' + 1) C =
              wrapSubIdx (consecutiveSends C v p n).newestPacketAt k' C := by
            unfold wrapSubIdx
            split_ifs <;> omega
          have hne : (if (consecutiveSends C v p n).newestPacketAt = C - 1 then 0
              else (consecutiveSends C v p n).newestPacketAt + 1) ≠
              wrapSubIdx (consecutiveSends C v p n).newestPacketAt k' C := by
            unfold wrapSubIdx
            split_ifs <;> omega
          rw [hidx, getD_set_ne _ _ _ _ hne, ihslot k' hk']
          congr 1
          omega
    · have hn0 : n = 0 := by omega
      subst hn0
      refine ⟨?_, ?_, ?_, ?_, ?_⟩
      · simp [consecutiveSends, packetSent, SentPacketHistory.init]
      · simp only [consecutiveSends, packetSent, SentPacketHistory.init,
          List.length_replicate]
        split <;> omega
      · simp only [consecutiveSends, packetSent, SentPacketHistory.init,
          List.length_set, List.length_replicate]
        split <;> omega
      · simp only [consecutiveSends, packetSent]
        congr 1
      · intro k hk
        have hk0 : k = 0 := by omega
        subst hk0
        simp only [consecutiveSends, packetSent, SentPacketHistory.init,
          List.length_replicate]
        have hwz : wrapSubIdx (if 0 = C - 1 then 0 else 0 + 1) 0 C =
            (if 0 = C - 1 then 0 else 0 + 1) := by
          simp [wrapSubIdx]
        rw [hwz, getD_set_self _ _ _ (by rw [List.length_replicate]; split <;> omega)]

/-- C2: in a capacity-`C` history built by `n` consecutive `recordSent`
calls (the `i`-th passing sequence number `(v+i) mod 65536` and payload
`p i`), the lookup of `newest - k` (ring-subtracted) returns the payload
recorded with that sequence number exactly when `k < count = min n C`,
and `none` otherwise; the queried number is the one the `(n-k)`-th call
recorded.  In particular, with capacity 3 and records 1 ↦ "a", 2 ↦ "b",
3 ↦ "c", 4 ↦ "d": lookup of 1 is `none`, of 4 is "d", of 2 is "b". -/
theorem sent_history_window (C v n k : Nat) (p : Nat → String)
    (hC : 1 ≤ C) (hn : 1 ≤ n) (hk : k < 65536) :
    (getPacket (consecutiveSends C v p n) ((v + n - 1 + (65536 - k)) % 65536) =
      if k < min n C then some (p (n - 1 - k)) else none) ∧
    (k < min n C →
      (v + (n - 1 - k)) % 65536 = (v + n - 1 + (65536 - k)) % 65536) ∧
    getPacket (consecutiveSends 3 1 (fun i => ["a", "b", "c", "d"].getD i "") 4) 1 = none ∧
    getPacket (consecutiveSends 3 1 (fun i => ["a", "b", "c", "d"].getD i "") 4) 4 = some "d" ∧
    getPacket (consecutiveSends 3 1 (fun i => ["a", "b", "c", "d"].getD i "") 4) 2 = some "b" := by
  obtain ⟨hlen, hat, hcnt, hseq, hslot⟩ := consecutiveSends_inv C v p hC n hn
  refine ⟨?_, ?_, by decide, by decide, by decide⟩
  · have hq : (v + n - 1 + (65536 - k)) % 65536 < 65536 := by omega
    have hN : (consecutiveSends C v p n).newestSequenceNumber < 65536 := by
      rw [hseq]
      omega
    rw [getPacket_eq _ _ hq hN, hcnt, hseq, hlen]
    have hd : ringDistance ((v + n - 1) % 65536) ((v + n - 1 + (65536 - k)) % 65536) = k := by
      unfold ringDistance
      omega
    rw [hd]
    by_cases hwin : k < min n C
    · rw [if_neg (by omega), if_pos hwin]
      exact congrArg some (hslot k hwin)
    · rw [if_pos (by omega), if_neg hwin]
  · intro hwin
    omega

/-- Witness for C2: capacity 3, records 1 ↦ "a" … 4 ↦ "d", looking two
ring steps back from the newest number 4 (i.e. at sequence number 2). -/
theorem sent_history_window_witness :
    ((getPacket (consecutiveSends 3 1 (fun i => ["a", "b", "c", "d"].getD i "") 4)
        ((1 + 4 - 1 + (65536 - 2)) % 65536) =
      if 2 < min 4 3 then some (((fun i => ["a", "b", "c", "d"].getD i "") : Nat → String) (4 - 1 - 2)) else none) ∧
    (2 < min 4 3 →
      (1 + (4 - 1 - 2)) % 65536 = (1 + 4 - 1 + (65536 - 2)) % 65536) ∧
    getPacket (consecutiveSends 3 1 (fun i => ["a", "b", "c", "d"].getD i "") 4) 1 = none ∧
    getPacket (consecutiveSends 3 1 (fun i => ["a", "b", "c", "d"].getD i "") 4) 4 = some "d" ∧
    getPacket (consecutiveSends 3 1 (fun i => ["a", "b", "c", "d"].getD i "") 4) 2 = some "b") :=
  sent_history_window 3 1 4 2 (fun i => ["a", "b", "c", "d"].getD i "")
    (by decide) (by decide) (by decide)

end Hifi
